import Mathlib

/-!
Shallow embedding of the `ArchiveOrgCollector` core of the legal-atlas-collector
repository, together with proofs about its behaviour.

The embedding follows `src/collectors/archive.ts` in its current form (the
version that tracks per-file `Document` rows in the database while downloading).
JavaScript numbers are modelled as integers together with `NaN` (the fractional
part of a double plays no role in this code); JSON values are modelled by an
inductive type; the external collaborators (HTTP transport, the Prisma
persistence layer, the uuid generator, the file streamer) are modelled as
explicit parameters, so every function is a pure, executable Lean definition.
-/

namespace Archive

/-- Model of a JavaScript number as it occurs in this code: an integer or NaN.
(The collector only ever produces numbers via `parseInt` or passes integers
through, so fractional doubles are not needed.) -/
inductive JsNum where
  | int : Int → JsNum
  | nan : JsNum
deriving DecidableEq, Repr

/-- Model of a JSON value (the untyped data crossing the HTTP and config
boundaries). JavaScript objects are modelled as association lists of fields;
a real object has no duplicate keys, which some theorems assume explicitly. -/
inductive JsonVal where
  | str : String → JsonVal
  | num : JsNum → JsonVal
  | boolean : Bool → JsonVal
  | null : JsonVal
  | arr : List JsonVal → JsonVal
  | obj : List (String × JsonVal) → JsonVal

/-- Field lookup on a JSON object, first occurrence wins (as in JavaScript). -/
def lookupField (fields : List (String × JsonVal)) (key : String) : Option JsonVal :=
  match fields with
  | [] => none
  | (k, v) :: rest => if k == key then some v else lookupField rest key

/-- Characters treated as whitespace by JavaScript `parseInt` (the ASCII ones;
this code only ever receives ASCII size strings). -/
def jsSpace (c : Char) : Bool :=
  c == ' ' || c == '\t' || c == '\n' || c == '\r'

/-- Model of JavaScript `parseInt(s, 10)`: skip leading whitespace, read an
optional sign, then the longest run of decimal digits; `NaN` when that run is
empty, otherwise the (signed) value of the digits, ignoring any trailing text. -/
def parseIntBase10 (s : String) : JsNum :=
  let cs := s.data.dropWhile jsSpace
  let signed : Bool × List Char :=
    match cs with
    | '-' :: r => (true, r)
    | '+' :: r => (false, r)
    | r => (false, r)
  let ds := signed.2.takeWhile Char.isDigit
  if ds.isEmpty then JsNum.nan
  else
    let n : Nat := ds.foldl (fun acc c => acc * 10 + (c.toNat - '0'.toNat)) 0
    JsNum.int (if signed.1 then -(n : Int) else (n : Int))

/-- Models zod's `z.string().url()` check, i.e. that `new URL(s)` succeeds: the
string starts with a scheme (an ASCII letter followed by letters, digits, `+`,
`-` or `.`) and a colon, and for the special `http`/`https` schemes `//` and a
nonempty host follow. -/
def zodIsUrl (s : String) : Bool :=
  go s.data []
where
  /-- Scan for the first colon, accumulating the (reversed) scheme before it. -/
  go : List Char → List Char → Bool
  | [], _ => false
  | c :: rest, acc =>
    if c == ':' then
      match acc.reverse with
      | [] => false
      | s0 :: stail =>
        s0.isAlpha && stail.all (fun d => d.isAlphanum || d == '+' || d == '-' || d == '.') &&
          (if acc.reverse == "https".data || acc.reverse == "http".data then
            match rest with
            | '/' :: '/' :: h :: _ => h != '/'
            | _ => false
          else true)
    else go rest (c :: acc)

/-- The literal head of a canonical details URL. -/
def detailsHead : String := "https://archive.org/details/"

/-- The literal head of a canonical metadata URL. -/
def metadataHead : String := "https://archive.org/metadata/"

/-- Models the refinement regex of `configSchema`,
`^https:\/\/archive\.org\/(details|metadata)\/[^/]+$` : the string is one of
the two literal heads followed by a nonempty run of non-slash characters. -/
def configUrlPat (s : String) : Bool :=
  tailOk (stripHead detailsHead.data s.data) || tailOk (stripHead metadataHead.data s.data)
where
  /-- Strip a literal head from a character list, `none` if it is not there. -/
  stripHead : List Char → List Char → Option (List Char)
  | [], cs => some cs
  | _ :: _, [] => none
  | h :: hs, c :: cs => if c == h then stripHead hs cs else none
  /-- The remainder after the head must be nonempty and slash-free. -/
  tailOk : Option (List Char) → Bool
  | none => false
  | some rest => !rest.isEmpty && rest.all (fun c => c != '/')

/-- The normalized configuration produced by `configSchema`. -/
structure Config where
  url : String
deriving DecidableEq, Repr

/-- Models `configSchema.safeParse`: a strict object with exactly the field
`url`, whose value is a string passing `z.string().url()` and the archive-URL
refinement regex. Returns the parsed config, or `none` on any deviation. -/
def configSchemaParse (v : JsonVal) : Option Config :=
  match v with
  | JsonVal.obj fields =>
    if fields.all (fun p => p.1 == "url") then
      match lookupField fields "url" with
      | some (JsonVal.str s) =>
        if zodIsUrl s && configUrlPat s then some ⟨s⟩ else none
      | _ => none
    else none
  | _ => none

/-- The public `validateConfig` method: `configSchema.safeParse`, returning the
parsed data on success and a null signal (here `none`) on failure. -/
def validateConfig (v : JsonVal) : Option Config :=
  configSchemaParse v

/-- Longest non-slash run at the head of a character list (the greedy `[^/]+`
of the identifier regex). -/
def takeNonSlash (cs : List Char) : List Char :=
  cs.takeWhile (fun c => c != '/')

/-- One attempted match of the unanchored regex
`https:\/\/archive\.org\/details\/([^/]+)` at the head of a character list:
the literal head must be present and at least one non-slash character must
follow; the capture is the greedy non-slash run. -/
def matchDetailsAt (cs : List Char) : Option (List Char) :=
  match configUrlPat.stripHead detailsHead.data cs with
  | none => none
  | some rest =>
    let cap := takeNonSlash rest
    if cap.isEmpty then none else some cap

/-- Leftmost-match scan of `matchDetailsAt` over every start position, as
JavaScript `String.match` with a non-global regex does. -/
def scanDetails : List Char → Option (List Char)
  | [] => none
  | c :: rest =>
    match matchDetailsAt (c :: rest) with
    | some cap => some cap
    | none => scanDetails rest

/-- The private `getIdentifierFromUrl` method:
`url.match(/https:\/\/archive\.org\/details\/([^/]+)/)`, returning the first
capture group of the leftmost match, or `null` (here `none`). -/
def getIdentifierFromUrl (url : String) : Option String :=
  (scanDetails url.data).map (fun cs => String.mk cs)

/-- Required string field: `z.string()` on a present field. -/
def reqStr (fields : List (String × JsonVal)) (key : String) : Option String :=
  match lookupField fields key with
  | some (JsonVal.str s) => some s
  | _ => none

/-- Optional string field: `z.string().optional()` — an absent field is fine,
a present field must be a string (null and other shapes are rejected). -/
def optStr (fields : List (String × JsonVal)) (key : String) : Option (Option String) :=
  match lookupField fields key with
  | none => some none
  | some (JsonVal.str s) => some (some s)
  | some _ => none

/-- Required number field: `z.number()` on a present field (NaN is rejected by
zod's number check). -/
def reqNum (fields : List (String × JsonVal)) (key : String) : Option Int :=
  match lookupField fields key with
  | some (JsonVal.num (JsNum.int n)) => some n
  | _ => none

/-- Parse `z.array(z.string())`. -/
def strArray (v : JsonVal) : Option (List String) :=
  match v with
  | JsonVal.arr items =>
    items.mapM (fun x => match x with | JsonVal.str s => some s | _ => none)
  | _ => none

/-- The value branch of the `size` field: `z.union([z.string(), z.number()])`
followed by the transform that sends a string through `parseInt(val, 10)` and
passes a number through unchanged. -/
def sizeVal (v : JsonVal) : Option JsNum :=
  match v with
  | JsonVal.str s => some (parseIntBase10 s)
  | JsonVal.num (JsNum.int n) => some (JsNum.int n)
  | _ => none

/-- The optional `size` field of `fileSchema`. -/
def sizeField (fields : List (String × JsonVal)) : Option (Option JsNum) :=
  match lookupField fields "size" with
  | none => some none
  | some v => (sizeVal v).map some

/-- One file entry of an archive item, as produced by `fileSchema`. -/
structure File where
  name : String
  source : Option String
  mtime : Option String
  size : Option JsNum
  md5 : Option String
  crc32 : Option String
  sha1 : Option String
  format : String
  viruscheck : Option String
  btih : Option String
  summation : Option String
deriving DecidableEq, Repr

/-- Models `fileSchema.safeParse` on a JSON value: a (non-strict) object with
required `name` and `format` strings, the optional string fields, and the
optional union-and-transform `size` field. Unknown keys are stripped, as zod
does for non-strict objects. -/
def fileSchema (v : JsonVal) : Option File :=
  match v with
  | JsonVal.obj fields => do
    let name ← reqStr fields "name"
    let source ← optStr fields "source"
    let mtime ← optStr fields "mtime"
    let size ← sizeField fields
    let md5 ← optStr fields "md5"
    let crc32 ← optStr fields "crc32"
    let sha1 ← optStr fields "sha1"
    let format ← reqStr fields "format"
    let viruscheck ← optStr fields "viruscheck"
    let btih ← optStr fields "btih"
    let summation ← optStr fields "summation"
    pure ⟨name, source, mtime, size, md5, crc32, sha1, format, viruscheck, btih, summation⟩
  | _ => none

/-- Item-level metadata, as produced by `metadataSchema`. -/
structure ItemMetadata where
  identifier : String
  mediatype : String
  collection : List String
  description : Option String
  scanner : Option String
  subject : Option String
  title : String
  uploader : String
  publicdate : String
  addeddate : String
  curation : Option String
deriving DecidableEq, Repr

/-- Models `metadataSchema.safeParse`. -/
def metadataSchema (v : JsonVal) : Option ItemMetadata :=
  match v with
  | JsonVal.obj fields => do
    let identifier ← reqStr fields "identifier"
    let mediatype ← reqStr fields "mediatype"
    let collection ← lookupField fields "collection" >>= strArray
    let description ← optStr fields "description"
    let scanner ← optStr fields "scanner"
    let subject ← optStr fields "subject"
    let title ← reqStr fields "title"
    let uploader ← reqStr fields "uploader"
    let publicdate ← reqStr fields "publicdate"
    let addeddate ← reqStr fields "addeddate"
    let curation ← optStr fields "curation"
    pure ⟨identifier, mediatype, collection, description, scanner, subject,
      title, uploader, publicdate, addeddate, curation⟩
  | _ => none

/-- A `{server, dir}` pair inside `alternate_locations`. -/
structure ServerDir where
  server : String
  dir : String
deriving DecidableEq, Repr

/-- Parse one `{server, dir}` object. -/
def serverDirParse (v : JsonVal) : Option ServerDir :=
  match v with
  | JsonVal.obj fields => do
    let server ← reqStr fields "server"
    let dir ← reqStr fields "dir"
    pure ⟨server, dir⟩
  | _ => none

/-- The optional `alternate_locations` object. -/
structure AltLocations where
  servers : List ServerDir
  workable : List ServerDir
deriving DecidableEq, Repr

/-- Parse the `alternate_locations` object. -/
def altLocationsParse (v : JsonVal) : Option AltLocations :=
  match v with
  | JsonVal.obj fields => do
    let servers ← match lookupField fields "servers" with
      | some (JsonVal.arr items) => items.mapM serverDirParse
      | _ => none
    let workable ← match lookupField fields "workable" with
      | some (JsonVal.arr items) => items.mapM serverDirParse
      | _ => none
    pure ⟨servers, workable⟩
  | _ => none

/-- The validated, normalized snapshot of an archive item, as produced by
`archiveResponseSchema`. -/
structure ArchiveResponse where
  alternate_locations : Option AltLocations
  created : Int
  d1 : String
  d2 : String
  dir : String
  files : List File
  files_count : Int
  item_last_updated : Int
  item_size : Int
  metadata : ItemMetadata
  server : String
  uniq : Int
  workable_servers : List String
deriving DecidableEq, Repr

/-- Models `archiveResponseSchema.safeParse`: every required field must be
present with the right shape, `files` is an array of `fileSchema` entries, and
`alternate_locations` is optional but must have the right shape when present. -/
def archiveResponseSchema (v : JsonVal) : Option ArchiveResponse :=
  match v with
  | JsonVal.obj fields => do
    let altLoc ← match lookupField fields "alternate_locations" with
      | none => some none
      | some w => (altLocationsParse w).map some
    let created ← reqNum fields "created"
    let d1 ← reqStr fields "d1"
    let d2 ← reqStr fields "d2"
    let dir ← reqStr fields "dir"
    let files ← match lookupField fields "files" with
      | some (JsonVal.arr items) => items.mapM fileSchema
      | _ => none
    let filesCount ← reqNum fields "files_count"
    let itemLastUpdated ← reqNum fields "item_last_updated"
    let itemSize ← reqNum fields "item_size"
    let meta ← lookupField fields "metadata" >>= metadataSchema
    let server ← reqStr fields "server"
    let uniq ← reqNum fields "uniq"
    let workableServers ← lookupField fields "workable_servers" >>= strArray
    pure ⟨altLoc, created, d1, d2, dir, files, filesCount, itemLastUpdated,
      itemSize, meta, server, uniq, workableServers⟩
  | _ => none

/-- The metadata transport: maps a request path (relative to the collector's
`baseURL`) to a parsed JSON response body, or `none` when the request fails at
the network/HTTP level (axios throws). -/
def HttpOracle : Type := String → Option JsonVal

/-- The `getArchiveData` method. Resolution failure throws the invalid-URL
error. Inside the try block, a transport failure throws, and a schema-invalid
body throws the invalid-response-structure error; the surrounding catch
intercepts any error thrown in the try block — including the
invalid-response-structure one — and rethrows the fetch-failure error. -/
def getArchiveData (http : HttpOracle) (url : String) : Except String ArchiveResponse :=
  match getIdentifierFromUrl url with
  | none => Except.error "Invalid Archive.org URL"
  | some id =>
    let tryBlock : Except String ArchiveResponse :=
      match http ("/metadata/" ++ id) with
      | none => Except.error "axios network error"
      | some body =>
        match archiveResponseSchema body with
        | none => Except.error "Invalid response structure from Archive.org"
        | some parsed => Except.ok parsed
    match tryBlock with
    | Except.ok d => Except.ok d
    | Except.error _ => Except.error "Failed to fetch metadata from Archive.org"

/-- The `getDownloadUrl` method: the literal template
`https://S{archiveData.server}S{archiveData.dir}/S{fileName}` (with `S` for the
dollar of the template). -/
def getDownloadUrl (archiveData : ArchiveResponse) (fileName : String) : String :=
  "https://" ++ archiveData.server ++ archiveData.dir ++ "/" ++ fileName

/-- Lifecycle status of a `Document` row. -/
inductive DocStatus where
  | downloading : DocStatus
  | ready : DocStatus
  | error : DocStatus
deriving DecidableEq, Repr

/-- A persisted `Document` row. -/
structure Document where
  id : String
  sourceId : String
  path : String
  status : DocStatus
deriving DecidableEq, Repr

/-- The document table of the persistence collaborator, with a counter used to
generate fresh row ids. -/
structure DbState where
  documents : List Document
  nextId : Nat
deriving DecidableEq, Repr

/-- Modelled from the spec: the persistence collaborator exposes a create
operation for `Document` keyed by id; a successful `db.document.create` inserts
a fresh row with the given data and a generated id and returns it. -/
def dbDocumentCreate (db : DbState) (sourceId path : String) (status : DocStatus) :
    DbState × Document :=
  let doc : Document := ⟨"doc-" ++ toString db.nextId, sourceId, path, status⟩
  (⟨db.documents ++ [doc], db.nextId + 1⟩, doc)

/-- Modelled from the spec: the persistence collaborator exposes an update
operation for `Document` keyed by id. The id of the where-clause must be a
string — a null id is rejected with a validation error before any query runs —
and must match an existing row, otherwise the update throws. -/
def dbDocumentUpdate (db : DbState) (id : Option String) (status : DocStatus) :
    Except String DbState :=
  match id with
  | none => Except.error "PrismaClientValidationError: Argument id must not be null"
  | some i =>
    if db.documents.any (fun d => d.id == i) then
      Except.ok ⟨db.documents.map (fun d => if d.id == i then { d with status := status } else d),
        db.nextId⟩
    else Except.error "Record to update not found"

/-- The external collaborators of a download run: the metadata transport, the
file-stream transport (given the derived download URL and destination path,
does the streaming GET-plus-pipeline succeed?), the outcome of each
`db.document.create` call in order, and the uuid generator in call order. -/
structure DownloadEnv where
  http : HttpOracle
  stream : String → String → Bool
  createFails : Nat → Bool
  uuid : Nat → String

/-- The `downloadFile` method: derive the download URL, stream to the output
path; any transport, HTTP-status or filesystem error is caught and rethrown as
the per-file download-failure error naming the remote file. -/
def downloadFile (env : DownloadEnv) (archiveData : ArchiveResponse)
    (fileName outputPath : String) : Except String Unit :=
  let downloadUrl := getDownloadUrl archiveData fileName
  if env.stream downloadUrl outputPath then Except.ok ()
  else Except.error ("Failed to download file: " ++ fileName)

/-- Model of JavaScript `String.split` with a single-character separator:
splits into the (possibly empty) segments between separators. -/
def splitOnChar (sep : Char) : List Char → List (List Char)
  | [] => [[]]
  | c :: rest =>
    let r := splitOnChar sep rest
    if c == sep then [] :: r
    else
      match r with
      | [] => [[c]]
      | h :: t => (c :: h) :: t

/-- The generated-filename extension: `file.name.split(. ).pop()`, the last
segment of the name split on dots (the whole name when it has no dot). -/
def lastDotSeg (name : String) : String :=
  String.mk ((splitOnChar '.' name.data).getLastD [])

/-- Mutable loop state of `downloadFiles`: the document table, the `successful`
and `failed` arrays, and the number of files processed so far (which indexes
the uuid and create calls). -/
structure BatchState where
  db : DbState
  successful : List String
  failed : List String
  k : Nat
deriving Repr

/-- Result of the try block of one loop iteration of `downloadFiles`: the state
as mutated up to the point of return or throw, the `documentId` local variable
at that point, and the thrown error if the block threw. -/
structure TryOutcome where
  st : BatchState
  documentId : Option String
  thrown : Option String

/-- The try block of one iteration of the `downloadFiles` loop: create the
Document row in status DOWNLOADING (capturing its id), stream the file, push
the output path onto `successful`, set the Document to READY. A throw at any
point leaves the earlier mutations in place and reports the error. -/
def tryBody (env : DownloadEnv) (archiveData : ArchiveResponse)
    (sourceId outputPath remoteName : String) (st : BatchState) : TryOutcome :=
  if env.createFails st.k then
    ⟨st, none, some "document create failed"⟩
  else
    let created := dbDocumentCreate st.db sourceId outputPath DocStatus.downloading
    let st1 : BatchState := { st with db := created.1 }
    let documentId := some created.2.id
    match downloadFile env archiveData remoteName outputPath with
    | Except.error e => ⟨st1, documentId, some e⟩
    | Except.ok _ =>
      let st2 : BatchState := { st1 with successful := st1.successful ++ [outputPath] }
      match dbDocumentUpdate st2.db documentId DocStatus.ready with
      | Except.ok db2 => ⟨{ st2 with db := db2 }, documentId, none⟩
      | Except.error e => ⟨st2, documentId, some e⟩

/-- One iteration of the `downloadFiles` loop: compute the generated file name
(a uuid plus the original extension, `file.name.split(. ).pop()`), run the try
block, and on a throw run the catch block, which sets the Document whose id is
the current `documentId!` to status ERROR — this update itself may throw, and
such a secondary error escapes the iteration. The catch does not touch the
`failed` array. -/
def stepFile (env : DownloadEnv) (archiveData : ArchiveResponse)
    (sourceId outputDir : String) (file : File) (st : BatchState) :
    Except String BatchState :=
  let fileName := env.uuid st.k ++ "." ++ lastDotSeg file.name
  let outputPath := outputDir ++ "/" ++ fileName
  let r := tryBody env archiveData sourceId outputPath file.name st
  let stAfter : BatchState := { r.st with k := r.st.k + 1 }
  match r.thrown with
  | none => Except.ok stAfter
  | some _ =>
    match dbDocumentUpdate stAfter.db r.documentId DocStatus.error with
    | Except.ok db2 => Except.ok { stAfter with db := db2 }
    | Except.error e2 => Except.error e2

/-- The sequential for-loop of `downloadFiles` over the selected files; an
error escaping an iteration aborts the remaining loop. -/
def runFiles (env : DownloadEnv) (archiveData : ArchiveResponse)
    (sourceId outputDir : String) : List File → BatchState → Except String BatchState
  | [], st => Except.ok st
  | f :: rest, st =>
    match stepFile env archiveData sourceId outputDir f st with
    | Except.error e => Except.error e
    | Except.ok st2 => runFiles env archiveData sourceId outputDir rest st2

/-- The `downloadFiles` method: re-validate the config (throwing the
invalid-configuration error on failure — the dynamic zod message is abstracted
to a fixed placeholder), fetch a fresh snapshot, apply the optional file
filter, run the per-file loop from the given initial document table, and
return the `successful`/`failed` partition. -/
def downloadFiles (env : DownloadEnv) (db0 : DbState) (sourceId : String)
    (config : JsonVal) (outputDir : String) (fileFilter : Option (File → Bool)) :
    Except String (List String × List String) :=
  match configSchemaParse config with
  | none => Except.error "Invalid configuration: (zod issues)"
  | some cfg =>
    match getArchiveData env.http cfg.url with
    | Except.error e => Except.error e
    | Except.ok archiveData =>
      let files := match fileFilter with
        | some fl => archiveData.files.filter fl
        | none => archiveData.files
      match runFiles env archiveData sourceId outputDir files ⟨db0, [], [], 0⟩ with
      | Except.error e => Except.error e
      | Except.ok st => Except.ok (st.successful, st.failed)

/-- A persisted `DataSource` row; `configUrl` is the `url` field of its stored
JSON config. -/
structure DataSource where
  id : String
  type : String
  configUrl : String
deriving DecidableEq, Repr

/-- The data-source table of the persistence collaborator, with a counter used
to generate fresh row ids. -/
structure SourceDb where
  sources : List DataSource
  nextId : Nat
deriving DecidableEq, Repr

/-- The where-clause of the duplicate check in `createSource`: type equals the
archive collector tag and the `url` path of the stored config equals the given
URL exactly. -/
def sourceMatches (url : String) (d : DataSource) : Bool :=
  d.type == "archive.org files" && d.configUrl == url

/-- Modelled from the spec: the persistence collaborator exposes a find
operation for `DataSource` keyed by (type, config.url); `findFirst` returns
the first stored row matching the where-clause, if any. -/
def findFirstSource (db : SourceDb) (url : String) : Option DataSource :=
  db.sources.find? (sourceMatches url)

/-- Errors thrown by `createSource`: a plain invalid-configuration `Error`, or
a `DuplicateError`, whose optional `id` field carries the conflicting row id
it was constructed with. -/
inductive SrcError where
  | invalidConfig (message : String)
  | duplicateSource (message : String) (id : Option String)
deriving DecidableEq, Repr

/-- The `createSource` method: validate the config (throwing on rejection),
look up an existing source with the same type and exact config URL (throwing
`DuplicateError` carrying the existing id if found), otherwise persist and
return a new `DataSource` with the normalized config. Row ids are generated by
the persistence collaborator (modelled from the spec by a counter). -/
def createSource (db : SourceDb) (config : JsonVal) :
    Except SrcError (DataSource × SourceDb) :=
  match validateConfig config with
  | none => Except.error (SrcError.invalidConfig "Invalid configuration for archive.org files")
  | some cfg =>
    match findFirstSource db cfg.url with
    | some existing =>
      Except.error (SrcError.duplicateSource "Data source already exists" (some existing.id))
    | none =>
      let ds : DataSource := ⟨"src-" ++ toString db.nextId, "archive.org files", cfg.url⟩
      Except.ok (ds, ⟨db.sources ++ [ds], db.nextId + 1⟩)

/-- Formalization of the claim wording for the Identifier Resolver: a string
of the form `https://archive.org/details/<id>`, with `<id>` nonempty and
slash-free, optionally followed by further path segments — i.e. the literal
details head starts the string and at least one non-slash character follows
it. -/
def specDetailsShape (s : String) : Bool :=
  match configUrlPat.stripHead detailsHead.data s.data with
  | none => false
  | some rest => !(takeNonSlash rest).isEmpty

/-- A JSON value is a faithful image of a JavaScript object at top level only
when its field keys are free of duplicates. -/
def objNodupKeys (v : JsonVal) : Prop :=
  match v with
  | JsonVal.obj fields => (fields.map Prod.fst).Nodup
  | _ => True

instance instDecidableObjNodupKeys (v : JsonVal) : Decidable (objNodupKeys v) :=
  match v with
  | JsonVal.obj fields => (inferInstance : Decidable (fields.map Prod.fst).Nodup)
  | JsonVal.str _ => isTrue trivial
  | JsonVal.num _ => isTrue trivial
  | JsonVal.boolean _ => isTrue trivial
  | JsonVal.null => isTrue trivial
  | JsonVal.arr _ => isTrue trivial

instance instDecidableEqExcept {ε α : Type} [DecidableEq ε] [DecidableEq α] :
    DecidableEq (Except ε α) := fun a b =>
  match a, b with
  | Except.ok x, Except.ok y =>
    if h : x = y then isTrue (by rw [h]) else isFalse (by intro hc; cases hc; exact h rfl)
  | Except.error x, Except.error y =>
    if h : x = y then isTrue (by rw [h]) else isFalse (by intro hc; cases hc; exact h rfl)
  | Except.ok _, Except.error _ => isFalse (by intro hc; cases hc)
  | Except.error _, Except.ok _ => isFalse (by intro hc; cases hc)

/-- A metadata object with all required item-level fields (test fixture). -/
def mdObj : JsonVal := JsonVal.obj [
  ("identifier", JsonVal.str "foo"), ("mediatype", JsonVal.str "texts"),
  ("collection", JsonVal.arr [JsonVal.str "c1"]),
  ("title", JsonVal.str "T"), ("uploader", JsonVal.str "U"),
  ("publicdate", JsonVal.str "2020"), ("addeddate", JsonVal.str "2020")]

/-- A file entry with a given name and size value (test fixture). -/
def fileJsonSized (nm : String) (sz : JsonVal) : JsonVal := JsonVal.obj [
  ("name", JsonVal.str nm), ("format", JsonVal.str "Text PDF"), ("size", sz)]

/-- A metadata response with all required fields and three files (test
fixture). -/
def goodBody : JsonVal := JsonVal.obj [
  ("created", JsonVal.num (JsNum.int 1)), ("d1", JsonVal.str "d1"),
  ("d2", JsonVal.str "d2"), ("dir", JsonVal.str "/12/items/foo"),
  ("files", JsonVal.arr [fileJsonSized "a.pdf" (JsonVal.str "10"),
    fileJsonSized "b.pdf" (JsonVal.num (JsNum.int 20)),
    fileJsonSized "c.pdf" (JsonVal.str "30")]),
  ("files_count", JsonVal.num (JsNum.int 3)),
  ("item_last_updated", JsonVal.num (JsNum.int 5)),
  ("item_size", JsonVal.num (JsNum.int 60)),
  ("metadata", mdObj), ("server", JsonVal.str "srv"),
  ("uniq", JsonVal.num (JsNum.int 7)),
  ("workable_servers", JsonVal.arr [JsonVal.str "srv"])]

/-- The same response body with the required `files` array removed (test
fixture for a schema-invalid response). -/
def badBody : JsonVal := JsonVal.obj [
  ("created", JsonVal.num (JsNum.int 1)), ("d1", JsonVal.str "d1"),
  ("d2", JsonVal.str "d2"), ("dir", JsonVal.str "/12/items/foo"),
  ("files_count", JsonVal.num (JsNum.int 3)),
  ("item_last_updated", JsonVal.num (JsNum.int 5)),
  ("item_size", JsonVal.num (JsNum.int 60)),
  ("metadata", mdObj), ("server", JsonVal.str "srv"),
  ("uniq", JsonVal.num (JsNum.int 7)),
  ("workable_servers", JsonVal.arr [JsonVal.str "srv"])]

/-- A response body whose single file has the non-numeric size string `abc`
(test fixture). -/
def nanBody : JsonVal := JsonVal.obj [
  ("created", JsonVal.num (JsNum.int 1)), ("d1", JsonVal.str "d1"),
  ("d2", JsonVal.str "d2"), ("dir", JsonVal.str "/12/items/foo"),
  ("files", JsonVal.arr [fileJsonSized "a.pdf" (JsonVal.str "abc")]),
  ("files_count", JsonVal.num (JsNum.int 1)),
  ("item_last_updated", JsonVal.num (JsNum.int 5)),
  ("item_size", JsonVal.num (JsNum.int 60)),
  ("metadata", mdObj), ("server", JsonVal.str "srv"),
  ("uniq", JsonVal.num (JsNum.int 7)),
  ("workable_servers", JsonVal.arr [JsonVal.str "srv"])]

/-- A valid config whose URL has the details shape (test fixture). -/
def cfgV : JsonVal := JsonVal.obj [("url", JsonVal.str "https://archive.org/details/foo")]

/-- A valid config whose URL has the metadata shape (test fixture). -/
def metaV : JsonVal := JsonVal.obj [("url", JsonVal.str "https://archive.org/metadata/foo")]

/-- A download environment in which the metadata endpoint serves `goodBody`,
every stream succeeds except the one for `b.pdf`, every Document creation
succeeds, and uuids are generated in call order (test fixture). -/
def env1 : DownloadEnv := {
  http := fun p => if p == "/metadata/foo" then some goodBody else none,
  stream := fun u _ => !(u == "https://srv/12/items/foo/b.pdf"),
  createFails := fun _ => false,
  uuid := fun k => "u" ++ toString k }

/-- The same environment except that the first Document creation throws (test
fixture). -/
def env2 : DownloadEnv := { env1 with createFails := fun k => k == 0 }

/-- Item metadata for the download-URL test fixture. -/
def sampleMeta : ItemMetadata :=
  ⟨"foo", "texts", [], none, none, none, "T", "U", "p", "a", none⟩

/-- The snapshot of the spec's download-URL example: server
`ia600.us.archive.org`, directory `/12/items/foo` (test fixture). -/
def sampleSnapshot : ArchiveResponse :=
  ⟨none, 0, "", "", "/12/items/foo", [], 0, 0, 0, sampleMeta,
    "ia600.us.archive.org", 0, []⟩

/-- A wrong-host URL that merely embeds the details pattern in a query string
(test fixture for the resolver). -/
def bad4 : String := "https://example.com/r?u=https://archive.org/details/abc"

/-- C1: in a three-file batch (`a.pdf`, `b.pdf`, `c.pdf`) where exactly the
second stream attempt fails, `downloadFiles` does continue past the failure and
returns the generated output paths of the first and third files as
`successful` — but `failed` comes back empty: the catch block of the loop
never records the original remote name `b.pdf`, so the claimed partition
(`failed` containing exactly the failing name) does not hold on the code. -/
theorem downloadFiles_failed_never_recorded :
    env1.stream "https://srv/12/items/foo/b.pdf" "out/u1.pdf" = false
    ∧ env1.stream "https://srv/12/items/foo/a.pdf" "out/u0.pdf" = true
    ∧ env1.stream "https://srv/12/items/foo/c.pdf" "out/u2.pdf" = true
    ∧ downloadFiles env1 ⟨[], 0⟩ "sid" cfgV "out" none
        = Except.ok (["out/u0.pdf", "out/u2.pdf"], []) :=
  ⟨by decide, by decide, by decide, by decide⟩

/-- C2: when the Document creation of the first file throws before an id is
obtained, the catch block runs the status update with the null `documentId!`;
the persistence collaborator rejects a null id, and this secondary error
escapes the catch and aborts the whole batch — `downloadFiles` returns the
secondary validation error instead of a partition, so the error path is not
guarded against a missing Document id. -/
theorem downloadFiles_create_failure_aborts_batch :
    env2.createFails 0 = true
    ∧ downloadFiles env2 ⟨[], 0⟩ "sid" cfgV "out" none
        = Except.error "PrismaClientValidationError: Argument id must not be null" :=
  ⟨by decide, by decide⟩

/-- C3: a metadata response body missing the required `files` array fails
schema validation, yet `getArchiveData` does not surface the
invalid-response-structure error: that error is thrown inside the try block
and the catch rethrows the fetch-failure error, so the caller sees the error
reserved for network-level failures. -/
theorem getArchiveData_shape_error_masked :
    archiveResponseSchema badBody = none
    ∧ getArchiveData (fun _ => some badBody) "https://archive.org/details/foo"
        = Except.error "Failed to fetch metadata from Archive.org" :=
  ⟨by decide, by decide⟩

/-- C4 counterexample: `bad4` is a wrong-host URL (it is not of the canonical
details form — `specDetailsShape` rejects it), yet `getIdentifierFromUrl`
returns `some "abc"` because the resolver regex is unanchored and matches the
details pattern embedded in the query string, refuting the claim that every
non-matching string yields the not-found signal. -/
theorem getIdentifierFromUrl_embedded_pattern_counterexample :
    specDetailsShape bad4 = false ∧ getIdentifierFromUrl bad4 = some "abc" :=
  ⟨by decide, by decide⟩

/-- C6 counterexample: the config whose URL has the metadata shape is accepted
by `validateConfig`, yet `downloadFiles` on that very config fails with the
invalid-URL error, because the identifier resolver only recognizes the details
pattern — refuting the claim that accepted configs always proceed past
identifier resolution. -/
theorem downloadFiles_metadata_config_invalid_url :
    validateConfig metaV = some ⟨"https://archive.org/metadata/foo"⟩
    ∧ downloadFiles env1 ⟨[], 0⟩ "sid" metaV "out" none
        = Except.error "Invalid Archive.org URL" :=
  ⟨by decide, by decide⟩

/-- Stripping a literal head from that head followed by anything succeeds and
returns the remainder. -/
theorem stripHead_self_append (hs cs : List Char) :
    configUrlPat.stripHead hs (hs ++ cs) = some cs := by
  induction hs with
  | nil => rfl
  | cons h t ih => simp [configUrlPat.stripHead, ih]

/-- The greedy non-slash run of a slash-free block followed by nothing or by a
slash is exactly that block. -/
theorem takeNonSlash_append (a b : List Char) (ha : ∀ c ∈ a, c ≠ '/')
    (hb : b = [] ∨ ∃ t, b = '/' :: t) : takeNonSlash (a ++ b) = a := by
  induction a with
  | nil =>
    rcases hb with h | ⟨t, h⟩
    · subst h; rfl
    · subst h; simp [takeNonSlash]
  | cons c cs ih =>
    have hc : c ≠ '/' := ha c (by simp)
    simp only [takeNonSlash, List.cons_append, List.takeWhile_cons] at *
    simp [bne_iff_ne, hc]
    exact ih (fun x hx => ha x (by simp [hx]))

/-- The details pattern never matches at the end of the input. -/
theorem matchDetailsAt_nil : matchDetailsAt ([] : List Char) = none := rfl

/-- A match at the very first position is the leftmost match. -/
theorem scanDetails_head (cs cap : List Char) (h : matchDetailsAt cs = some cap) :
    scanDetails cs = some cap := by
  cases cs with
  | nil => rw [matchDetailsAt_nil] at h; cases h
  | cons c rest => simp [scanDetails, h]

/-- Scanning the details head followed by a nonempty slash-free identifier and
an empty or slash-led remainder captures exactly the identifier. -/
theorem scanDetails_details_append (idc extra : List Char) (hne : idc ≠ [])
    (hns : ∀ c ∈ idc, c ≠ '/') (hex : extra = [] ∨ ∃ t, extra = '/' :: t) :
    scanDetails (detailsHead.data ++ (idc ++ extra)) = some idc := by
  apply scanDetails_head
  unfold matchDetailsAt
  rw [stripHead_self_append]
  simp only [takeNonSlash_append idc extra hns hex]
  simp [List.isEmpty_iff, hne]

/-- When no start position matches the details pattern, the scan fails. -/
theorem scanDetails_eq_none (cs : List Char)
    (h : ∀ i, i < cs.length → matchDetailsAt (cs.drop i) = none) :
    scanDetails cs = none := by
  induction cs with
  | nil => rfl
  | cons c rest ih =>
    have h0 := h 0 (by simp)
    simp only [List.drop_zero] at h0
    simp only [scanDetails, h0]
    exact ih (fun i hi => by
      have := h (i + 1) (by simpa using hi)
      simpa using this)

/-- C4 (amended): the resolver returns exactly `{id}` on every string of the
canonical form `https://archive.org/details/{id}` with optional extra trailing
path segments, and returns the not-found signal exactly on strings in which
the unanchored details pattern matches at no position — rather than on every
string not of the canonical form, since the unanchored regex also fires on
embedded occurrences. -/
theorem getIdentifierFromUrl_amended :
    (∀ id extra : String, id ≠ "" → (∀ c ∈ id.data, c ≠ '/') →
        (extra = "" ∨ extra.data.head? = some '/') →
        getIdentifierFromUrl (detailsHead ++ id ++ extra) = some id)
    ∧ (∀ s : String, (∀ i, i < s.data.length → matchDetailsAt (s.data.drop i) = none) →
        getIdentifierFromUrl s = none) := by
  constructor
  · intro id extra hne hns hex
    unfold getIdentifierFromUrl
    have hd : (detailsHead ++ id ++ extra).data = detailsHead.data ++ (id.data ++ extra.data) := by
      simp [String.data_append]
    rw [hd, scanDetails_details_append id.data extra.data
      (by intro h; apply hne; cases id; simp_all)
      hns
      (by rcases hex with h | h
          · left; rw [h]
          · right
            cases hx : extra.data with
            | nil => rw [hx] at h; cases h
            | cons c t => rw [hx] at h; simp at h; exact ⟨t, by rw [h]⟩)]
    rfl
  · intro s h
    unfold getIdentifierFromUrl
    rw [scanDetails_eq_none s.data h]
    rfl

/-- Witness for C4 (amended): both halves at concrete inputs — the canonical
URL of the test suite resolves to its identifier, and a pattern-free string
resolves to the not-found signal. -/
theorem getIdentifierFromUrl_amended_witness :
    ("kuwaitalyawm" ≠ "" ∧ (∀ c ∈ "kuwaitalyawm".data, c ≠ '/')
      ∧ getIdentifierFromUrl (detailsHead ++ "kuwaitalyawm" ++ "") = some "kuwaitalyawm")
    ∧ ((∀ i, i < "not-a-url".data.length → matchDetailsAt ("not-a-url".data.drop i) = none)
      ∧ getIdentifierFromUrl "not-a-url" = none) :=
  ⟨⟨by decide, by decide,
      getIdentifierFromUrl_amended.1 "kuwaitalyawm" "" (by decide) (by decide) (Or.inl rfl)⟩,
   ⟨by decide, getIdentifierFromUrl_amended.2 "not-a-url" (by decide)⟩⟩

/-- A strict all-keys-url object with no duplicate keys and a successful url
lookup is exactly the one-field object. -/
theorem strict_single_field (fields : List (String × JsonVal)) (s : String)
    (hall : fields.all (fun p => p.1 == "url") = true)
    (hnd : (fields.map Prod.fst).Nodup)
    (hlook : lookupField fields "url" = some (JsonVal.str s)) :
    fields = [("url", JsonVal.str s)] := by
  match fields with
  | [] => simp [lookupField] at hlook
  | (k, w) :: rest =>
    simp only [List.all_cons, Bool.and_eq_true, beq_iff_eq] at hall
    obtain ⟨hk, hrest⟩ := hall
    subst hk
    cases rest with
    | nil =>
      simp [lookupField] at hlook
      rw [hlook]
    | cons r rs =>
      exfalso
      simp only [List.map_cons, List.nodup_cons] at hnd
      have hr : r.1 = "url" := by
        have := List.all_eq_true.mp hrest r (by simp)
        simpa using this
      exact hnd.1 (by simp [hr])

/-- C5: `validateConfig` accepts a JSON value (with the duplicate-free keys of
a real JavaScript object) precisely when it is an object with exactly the
`url` field, whose string value passes the zod URL check and the anchored
details-or-metadata regex with a slash-free identifier; everything else is
rejected, and rejection is the null value by the shape of the function, never
an exception. -/
theorem validateConfig_characterization (v : JsonVal) (hwf : objNodupKeys v) :
    (validateConfig v).isSome = true ↔
      ∃ s : String, v = JsonVal.obj [("url", JsonVal.str s)]
        ∧ zodIsUrl s = true ∧ configUrlPat s = true := by
  constructor
  · intro h
    match v with
    | JsonVal.str _ => simp [validateConfig, configSchemaParse] at h
    | JsonVal.num _ => simp [validateConfig, configSchemaParse] at h
    | JsonVal.boolean _ => simp [validateConfig, configSchemaParse] at h
    | JsonVal.null => simp [validateConfig, configSchemaParse] at h
    | JsonVal.arr _ => simp [validateConfig, configSchemaParse] at h
    | JsonVal.obj fields =>
      simp only [validateConfig, configSchemaParse] at h
      split at h
      case isTrue hall =>
        split at h
        case h_1 s heq =>
          split at h
          case isTrue hchecks =>
            simp only [Bool.and_eq_true] at hchecks
            exact ⟨s, by rw [strict_single_field fields s hall hwf heq],
              hchecks.1, hchecks.2⟩
          case isFalse => simp at h
        case h_2 hne => simp at h
      case isFalse => simp at h
  · rintro ⟨s, rfl, hz, hp⟩
    simp [validateConfig, configSchemaParse, lookupField, hz, hp]

/-- Witness for C5: the characterization applied to the concrete valid config
object. -/
theorem validateConfig_characterization_witness :
    objNodupKeys cfgV
    ∧ ((validateConfig cfgV).isSome = true ↔
        ∃ s : String, cfgV = JsonVal.obj [("url", JsonVal.str s)]
          ∧ zodIsUrl s = true ∧ configUrlPat s = true) :=
  ⟨by decide, validateConfig_characterization cfgV (by decide)⟩

/-- C7: a `size` field arriving as the decimal string `12345` is normalized by
`fileSchema` to the integer `12345`, and a `size` field arriving already as a
number passes through unchanged, whatever the other file fields are. -/
theorem fileSchema_size_normalization :
    (∀ name format : String,
      fileSchema (JsonVal.obj [("name", JsonVal.str name),
          ("format", JsonVal.str format), ("size", JsonVal.str "12345")])
        = some ⟨name, none, none, some (JsNum.int 12345), none, none, none,
            format, none, none, none⟩)
    ∧ (∀ (name format : String) (n : Int),
      fileSchema (JsonVal.obj [("name", JsonVal.str name),
          ("format", JsonVal.str format), ("size", JsonVal.num (JsNum.int n))])
        = some ⟨name, none, none, some (JsNum.int n), none, none, none,
            format, none, none, none⟩) :=
  ⟨fun _ _ => rfl, fun _ _ _ => rfl⟩

/-- C8: the derived download URL is exactly the concatenation
`https:// ++ server ++ dir ++ / ++ fileName` for every snapshot and file name,
and on the spec example snapshot it is exactly
`https://ia600.us.archive.org/12/items/foo/bar.pdf`. -/
theorem getDownloadUrl_concatenation :
    (∀ (a : ArchiveResponse) (fn : String),
      getDownloadUrl a fn = "https://" ++ a.server ++ a.dir ++ "/" ++ fn)
    ∧ getDownloadUrl sampleSnapshot "bar.pdf"
        = "https://ia600.us.archive.org/12/items/foo/bar.pdf" :=
  ⟨fun _ _ => rfl, by decide⟩

/-- Errors thrown by the modelled document update are exactly the null-id
validation error and the missing-record error. -/
theorem dbDocumentUpdate_error_msgs (db : DbState) (i : Option String)
    (s : DocStatus) (e : String) (h : dbDocumentUpdate db i s = Except.error e) :
    e = "PrismaClientValidationError: Argument id must not be null"
      ∨ e = "Record to update not found" := by
  cases i with
  | none =>
    left
    have h2 : Except.error (α := DbState)
        "PrismaClientValidationError: Argument id must not be null" = Except.error e := h
    injection h2 with h3
    exact h3.symm
  | some j =>
    simp only [dbDocumentUpdate] at h
    split at h
    · exact absurd h (by simp)
    · right
      injection h with h3
      exact h3.symm

/-- An error escaping a loop iteration can only come from the catch block's
document update. -/
theorem stepFile_error_msgs (env : DownloadEnv) (archiveData : ArchiveResponse)
    (sourceId outputDir : String) (file : File) (st : BatchState) (e : String)
    (h : stepFile env archiveData sourceId outputDir file st = Except.error e) :
    e = "PrismaClientValidationError: Argument id must not be null"
      ∨ e = "Record to update not found" := by
  simp only [stepFile] at h
  split at h
  · exact absurd h (by simp)
  · split at h
    · exact absurd h (by simp)
    · rename_i heq
      injection h with h3
      subst h3
      exact dbDocumentUpdate_error_msgs _ _ _ _ heq

/-- An error escaping the file loop can only come from one of its
iterations. -/
theorem runFiles_error_msgs (env : DownloadEnv) (archiveData : ArchiveResponse)
    (sourceId outputDir : String) (files : List File) (st : BatchState) (e : String)
    (h : runFiles env archiveData sourceId outputDir files st = Except.error e) :
    e = "PrismaClientValidationError: Argument id must not be null"
      ∨ e = "Record to update not found" := by
  induction files generalizing st with
  | nil => simp [runFiles] at h
  | cons f rest ih =>
    rw [runFiles] at h
    split at h
    · rename_i heq
      injection h with h3
      subst h3
      exact stepFile_error_msgs _ _ _ _ _ _ _ heq
    · exact ih _ h

/-- C6 (amended): for every config accepted by the Config Validator whose URL
has the `/details/<id>` shape, `downloadFiles` proceeds past identifier
resolution — resolution succeeds and the run can never fail with the
invalid-URL error — whatever the transport, streaming and persistence
collaborators do. (Accepted `/metadata/<id>` configs, by the counterexample,
do fail with the invalid-URL error.) -/
theorem downloadFiles_details_config_resolves
    (env : DownloadEnv) (db0 : DbState) (sourceId outputDir : String)
    (fileFilter : Option (File → Bool)) (v : JsonVal) (c : Config)
    (hv : validateConfig v = some c)
    (hd : ∃ idp : String, c.url = detailsHead ++ idp ∧ idp ≠ ""
            ∧ ∀ ch ∈ idp.data, ch ≠ '/') :
    (getIdentifierFromUrl c.url).isSome = true
    ∧ downloadFiles env db0 sourceId v outputDir fileFilter
        ≠ Except.error "Invalid Archive.org URL" := by
  obtain ⟨idp, hurl, hne, hns⟩ := hd
  have hres : getIdentifierFromUrl c.url = some idp := by
    unfold getIdentifierFromUrl
    rw [hurl]
    have hdata : (detailsHead ++ idp).data = detailsHead.data ++ (idp.data ++ []) := by
      simp [String.data_append]
    rw [hdata, scanDetails_details_append idp.data []
      (by intro hx; apply hne; cases idp; simp_all) hns (Or.inl rfl)]
    rfl
  have hga : ∀ e, getArchiveData env.http c.url = Except.error e →
      e = "Failed to fetch metadata from Archive.org" := by
    intro e he
    simp only [getArchiveData, hres] at he
    split at he
    · exact absurd he (by simp)
    · injection he with h3
      exact h3.symm
  refine ⟨by rw [hres]; rfl, ?_⟩
  intro hcon
  simp only [downloadFiles, show configSchemaParse v = some c from hv] at hcon
  cases hga2 : getArchiveData env.http c.url with
  | error e =>
    simp only [hga2] at hcon
    injection hcon with h3
    have := hga e hga2
    rw [h3] at this
    exact absurd this (by decide)
  | ok ad =>
    simp only [hga2] at hcon
    split at hcon
    · rename_i heq
      injection hcon with h3
      subst h3
      rcases runFiles_error_msgs _ _ _ _ _ _ _ heq with h1 | h1 <;>
        exact absurd h1 (by decide)
    · exact absurd hcon (by simp)

/-- Witness for C6 (amended): the concrete valid details config, in the
concrete environment, resolves and does not produce the invalid-URL error. -/
theorem downloadFiles_details_config_resolves_witness :
    validateConfig cfgV = some ⟨"https://archive.org/details/foo"⟩
    ∧ ("https://archive.org/details/foo" : String) = detailsHead ++ "foo"
    ∧ ((getIdentifierFromUrl "https://archive.org/details/foo").isSome = true
      ∧ downloadFiles env1 ⟨[], 0⟩ "sid" cfgV "out" none
          ≠ Except.error "Invalid Archive.org URL") :=
  ⟨by decide, by decide,
    downloadFiles_details_config_resolves env1 ⟨[], 0⟩ "sid" "out" none cfgV
      ⟨"https://archive.org/details/foo"⟩ (by decide)
      ⟨"foo", by decide, by decide, by decide⟩⟩

/-- C9: calling `createSource` twice sequentially with the same valid config,
starting from a store with no matching source, first persists and returns a
new `DataSource`, then fails with the duplicate error carrying the id of the
record created by the first call, leaving the store with exactly one
`DataSource` matching that (type, config.url) pair. -/
theorem createSource_twice_duplicate (db : SourceDb) (v : JsonVal) (cfg : Config)
    (hv : validateConfig v = some cfg)
    (hnone : findFirstSource db cfg.url = none) :
    ∃ ds : DataSource, ∃ db1 : SourceDb,
      createSource db v = Except.ok (ds, db1)
      ∧ createSource db1 v = Except.error
          (SrcError.duplicateSource "Data source already exists" (some ds.id))
      ∧ (db1.sources.filter (sourceMatches cfg.url)).length = 1 := by
  set ds : DataSource := ⟨"src-" ++ toString db.nextId, "archive.org files", cfg.url⟩ with hds
  have hmatch : sourceMatches cfg.url ds = true := by simp [sourceMatches, hds]
  have hfilter0 : db.sources.filter (sourceMatches cfg.url) = [] := by
    rw [List.filter_eq_nil_iff]
    intro a ha hpa
    have := List.find?_eq_none.mp hnone a ha
    exact this hpa
  refine ⟨ds, ⟨db.sources ++ [ds], db.nextId + 1⟩, ?_, ?_, ?_⟩
  · simp only [createSource, hv, findFirstSource] at *
    rw [hnone]
  · have hfind : findFirstSource ⟨db.sources ++ [ds], db.nextId + 1⟩ cfg.url = some ds := by
      unfold findFirstSource at hnone ⊢
      simp only [List.find?_append, hnone, Option.none_or]
      simp [List.find?, hmatch]
    simp only [createSource, hv, hfind]
  · simp only [List.filter_append, hfilter0, List.nil_append]
    simp [List.filter, hmatch]

/-- Witness for C9: two sequential registrations of the concrete valid config
against the empty store. -/
theorem createSource_twice_duplicate_witness :
    validateConfig cfgV = some ⟨"https://archive.org/details/foo"⟩
    ∧ findFirstSource ⟨[], 0⟩ "https://archive.org/details/foo" = none
    ∧ ∃ ds : DataSource, ∃ db1 : SourceDb,
        createSource ⟨[], 0⟩ cfgV = Except.ok (ds, db1)
        ∧ createSource db1 cfgV = Except.error
            (SrcError.duplicateSource "Data source already exists" (some ds.id))
        ∧ (db1.sources.filter (sourceMatches "https://archive.org/details/foo")).length = 1 :=
  ⟨by decide, by decide,
    createSource_twice_duplicate ⟨[], 0⟩ cfgV ⟨"https://archive.org/details/foo"⟩
      (by decide) (by decide)⟩

/-- C10: `fileSchema` accepts a string `size` field whatever its contents — a
non-numeric string such as `abc` is not a validation failure but is normalized
by `parseInt` to NaN, and a full metadata response carrying such a file
validates into a snapshot whose file has the NaN size. -/
theorem fileSchema_accepts_nonnumeric_size_as_nan :
    (∀ s : String, (fileSchema (fileJsonSized "a.pdf" (JsonVal.str s))).isSome = true)
    ∧ fileSchema (fileJsonSized "a.pdf" (JsonVal.str "abc"))
        = some ⟨"a.pdf", none, none, some JsNum.nan, none, none, none,
            "Text PDF", none, none, none⟩
    ∧ (archiveResponseSchema nanBody).map (fun r => r.files.map File.size)
        = some [some JsNum.nan] :=
  ⟨fun _ => rfl, by decide, by decide⟩

end Archive
